import Mathlib

/-!
A shallow embedding of the `golog` file backend (files `level.go` and
`filebackend.go`) together with proofs about the embedded operations.

Modelling conventions:
* Go `time.Time` is an `Int`, the number of nanoseconds since the Unix
  epoch; the process-local time zone is taken to be UTC (the wall-clock
  components used by the code — `Truncate`, `Format`, `Parse` — are all
  derived from this single integer).
* The filesystem is a value `FS`: a directory listing mapping file names
  (directory-relative, since every file the backend touches lives in the
  single log directory `s.dir`) to inode numbers, plus a map from inode
  numbers to durable contents.  Open file handles are represented by
  inode numbers, so a rename or unlink leaves an existing handle writing
  to the same inode, exactly as on a POSIX filesystem.
* Side effects other than filesystem-state changes (fsync, handle close,
  messages printed to stderr, rename/remove attempts) are recorded in an
  event list returned next to the new state.
* A Go nil-pointer dereference or out-of-range slice index is modelled by
  the `GoResult.panicked` result.
* `bufio.Writer` is modelled with an unbounded in-memory buffer; the
  automatic write-through that a full 256 KiB buffer would trigger is not
  modelled (no claim depends on the buffer capacity).
* `os.Stat` in the model either finds the file or fails with
  "does not exist"; other stat failures are not modelled, so the
  corresponding error branch of `doMonitorFiles` is dead in the model.
-/

namespace Golog

/-! ### level.go -/

/-- Go: `type Level int`. -/
abbrev Level := Int

def Debug : Level := 0

def Info : Level := 1

def Warning : Level := 2

def Error : Level := 3

def Fatal : Level := 4

/-- Go: `levelCount int = iota` (= 5). -/
def levelCount : Nat := 5

def levelMin : Level := Debug

def levelMax : Level := Fatal

/-- Go: the `levelNames` map; a missing key yields the zero value `""`. -/
def levelNames (l : Level) : String :=
  match l with
  | 0 => "DEBUG"
  | 1 => "INFO"
  | 2 => "WARNING"
  | 3 => "ERROR"
  | 4 => "FATAL"
  | _ => ""

/-- The five level names (values of the `levelNames` map). -/
def levelNamesList : List String := ["DEBUG", "INFO", "WARNING", "ERROR", "FATAL"]

/-! ### Bytes, events, panics -/

/-- Go `[]byte`. -/
abbrev Bytes := List Nat

/-- Observable side effects other than filesystem-state changes. -/
inductive Event where
  | rename (src : String) (dst : String)
  | removeFile (p : String)
  | stderrMsg (msg : String)
  | syncFile (ino : Nat)
  | closeFile (ino : Nat)
deriving DecidableEq, Repr

/-- Result of running a piece of Go code that may hit a runtime panic
(nil-pointer dereference, slice index out of range). -/
inductive GoResult (α : Type) where
  | ok (a : α)
  | panicked
deriving DecidableEq, Repr

/-! ### Filesystem model -/

/-- Directory lookup on an association list of (name, inode) entries. -/
def lookupDir : List (String × Nat) → String → Option Nat
  | [], _ => none
  | e :: rest, p => if e.1 = p then some e.2 else lookupDir rest p

/-- Inode-content lookup. -/
def lookupInode : List (Nat × Bytes) → Nat → Option Bytes
  | [], _ => none
  | e :: rest, i => if e.1 = i then some e.2 else lookupInode rest i

structure FS where
  /-- Directory entries of the log directory: file name ↦ inode. -/
  dir : List (String × Nat)
  /-- Durable contents, per inode. -/
  inodes : List (Nat × Bytes)
  /-- Next fresh inode number (every live inode is smaller). -/
  nextInode : Nat
deriving DecidableEq, Repr

def FS.statExists (fs : FS) (p : String) : Bool :=
  (lookupDir fs.dir p).isSome

def FS.contentOf (fs : FS) (ino : Nat) : Option Bytes :=
  lookupInode fs.inodes ino

/-- `os.OpenFile(p, O_APPEND|O_CREATE|O_WRONLY, 0644)`: reuse the existing
file if present, otherwise create an empty one; returns the handle's
inode.  Never fails in the model. -/
def FS.openAppendCreate (fs : FS) (p : String) : Nat × FS :=
  match lookupDir fs.dir p with
  | some ino => (ino, fs)
  | none =>
      (fs.nextInode,
       { dir := (p, fs.nextInode) :: fs.dir
         inodes := (fs.nextInode, []) :: fs.inodes
         nextInode := fs.nextInode + 1 })

/-- Append data to the (durable) content of an inode. -/
def FS.appendToInode (fs : FS) (ino : Nat) (data : Bytes) : FS :=
  { fs with inodes := fs.inodes.map (fun e => if e.1 = ino then (e.1, e.2 ++ data) else e) }

/-- `os.Rename(src, dst)`: if `src` is absent the call fails (the source
ignores the returned error, so the model leaves the state unchanged);
otherwise the entry is moved, silently replacing any existing `dst`. -/
def FS.renameFile (fs : FS) (src : String) (dst : String) : FS :=
  match lookupDir fs.dir src with
  | none => fs
  | some ino =>
      { fs with dir := (dst, ino) :: fs.dir.filter (fun e => !(e.1 == src || e.1 == dst)) }

/-- `os.Remove(p)` on a present file. -/
def FS.removeFile (fs : FS) (p : String) : FS :=
  { fs with dir := fs.dir.filter (fun e => !(e.1 == p)) }

/-- `ioutil.ReadDir`: the names in the directory.  (The source receives
them sorted by name; no claim observes the order.) -/
def FS.fileNames (fs : FS) : List String :=
  fs.dir.map Prod.fst

/-! ### syncBufio (filebackend.go) -/

structure SyncBufio where
  /-- Bytes sitting in the `bufio.Writer` buffer, not yet written out. -/
  buffer : Bytes
  /-- Inode of the open `*os.File`. -/
  inode : Nat
  /-- Go field `writeSize uint64` (overflow not modelled). -/
  writeSize : Nat
  filePath : String
deriving DecidableEq, Repr

/-- Go: `newSyncBufio(file, filepath, bufferSize)`. -/
def newSyncBufio (ino : Nat) (filepath : String) : SyncBufio :=
  { buffer := [], inode := ino, writeSize := 0, filePath := filepath }

/-- Go: `(s *syncBufio) write`: buffer the content, count the bytes.
(`bufio.Writer.Write` on the in-memory buffer does not fail in the
model, so the error branch printing to stderr is dead.) -/
def SyncBufio.write (s : SyncBufio) (content : Bytes) : SyncBufio :=
  { s with buffer := s.buffer ++ content, writeSize := s.writeSize + content.length }

/-- Go: `(s *syncBufio) flush`: push the buffer out to the file. -/
def SyncBufio.flush (s : SyncBufio) (fs : FS) : SyncBufio × FS :=
  ({ s with buffer := [] }, fs.appendToInode s.inode s.buffer)

/-- Go: `(s *syncBufio) close`: flush, sync, close the handle.  Flush and
sync errors do not occur in the model, so only the close remains. -/
def SyncBufio.close (s : SyncBufio) (fs : FS) : FS × List Event :=
  let (_, fs1) := s.flush fs
  (fs1, [Event.syncFile s.inode, Event.closeFile s.inode])

/-! ### Time (Go `time` package, UTC) -/

def nsPerSecond : Int := 1000000000

def nsPerMinute : Int := 60 * nsPerSecond

def nsPerHour : Int := 60 * nsPerMinute

/-- Go: `truncateToHour(t) = t.Truncate(time.Hour)` — rounds down to the
nearest multiple of an hour. -/
def truncateToHour (t : Int) : Int := t - t % nsPerHour

/-- Go: `Time.Unix()` — seconds since the epoch, rounded toward minus
infinity. -/
def unixOf (t : Int) : Int := t / nsPerSecond

/-- Wall-clock minute component (UTC). -/
def minuteOf (t : Int) : Int := (t / nsPerMinute) % 60

/-- Wall-clock second component (UTC). -/
def secondOf (t : Int) : Int := (t / nsPerSecond) % 60

/-- Sub-second component, in nanoseconds. -/
def subsecondOf (t : Int) : Int := t % nsPerSecond

def isLeapYear (y : Int) : Bool :=
  (y % 4 == 0 && y % 100 != 0) || y % 400 == 0

def daysInMonth (y m : Int) : Int :=
  if m = 2 then (if isLeapYear y then 29 else 28)
  else if m = 4 ∨ m = 6 ∨ m = 9 ∨ m = 11 then 30
  else 31

/-- Days before the start of month `m` in a non-leap year. -/
def daysBeforeMonth (m : Int) : Int :=
  match m with
  | 1 => 0
  | 2 => 31
  | 3 => 59
  | 4 => 90
  | 5 => 120
  | 6 => 151
  | 7 => 181
  | 8 => 212
  | 9 => 243
  | 10 => 273
  | 11 => 304
  | _ => 334

/-- Days since 1970-01-01 of the civil date y-m-d (valid for y ≥ 1970). -/
def daysFromCivil (y m d : Int) : Int :=
  let leaps := ((y - 1) / 4 - 492) - ((y - 1) / 100 - 19) + ((y - 1) / 400 - 4)
  let leapAdj : Int := if 2 < m ∧ isLeapYear y then 1 else 0
  365 * (y - 1970) + leaps + daysBeforeMonth m + leapAdj + (d - 1)

/-- Civil date (y, m, d) of a day count since 1970-01-01
(Howard Hinnant's `civil_from_days`). -/
def civilFromDays (z : Int) : Int × Int × Int :=
  let z' := z + 719468
  let era := z' / 146097
  let doe := z' - era * 146097
  let yoe := (doe - doe / 1460 + doe / 36524 - doe / 146096) / 365
  let y := yoe + era * 400
  let doy := doe - (365 * yoe + yoe / 4 - yoe / 100)
  let mp := (5 * doy + 2) / 153
  let d := doy - (153 * mp + 2) / 5 + 1
  let m := mp + (if mp < 10 then 3 else -9)
  (if m ≤ 2 then y + 1 else y, m, d)

def pad2 (n : Nat) : List Char :=
  [Nat.digitChar (n / 10 % 10), Nat.digitChar (n % 10)]

def pad4 (n : Nat) : List Char :=
  [Nat.digitChar (n / 1000 % 10), Nat.digitChar (n / 100 % 10),
   Nat.digitChar (n / 10 % 10), Nat.digitChar (n % 10)]

/-- Go: `t.Format("2006010215")` — YYYYMMDDHH, zero padded, UTC. -/
def formatDatetimeSuffix (t : Int) : String :=
  let secs := t / nsPerSecond
  let days := secs / 86400
  let secsOfDay := secs % 86400
  let hour := secsOfDay / 3600
  let ymd := civilFromDays days
  String.mk (pad4 ymd.1.toNat ++ pad2 ymd.2.1.toNat ++ pad2 ymd.2.2.toNat ++ pad2 hour.toNat)

/-- Digit value of an ASCII digit character. -/
def digitVal (c : Char) : Int := Int.ofNat c.toNat - 48

/-- Go: `time.Parse("2006010215", str)` — requires exactly ten digits and
in-range month, day-of-month and hour; yields the UTC instant. -/
def parseDatetimeSuffix (str : String) : Option Int :=
  match str.data with
  | [y1, y2, y3, y4, mo1, mo2, d1, d2, h1, h2] =>
      if (y1.isDigit && y2.isDigit && y3.isDigit && y4.isDigit &&
          mo1.isDigit && mo2.isDigit && d1.isDigit && d2.isDigit &&
          h1.isDigit && h2.isDigit) then
        let y := digitVal y1 * 1000 + digitVal y2 * 100 + digitVal y3 * 10 + digitVal y4
        let mo := digitVal mo1 * 10 + digitVal mo2
        let d := digitVal d1 * 10 + digitVal d2
        let h := digitVal h1 * 10 + digitVal h2
        if 1 ≤ mo ∧ mo ≤ 12 ∧ 1 ≤ d ∧ d ≤ daysInMonth y mo ∧ h ≤ 23 then
          some ((daysFromCivil y mo d * 86400 + h * 3600) * nsPerSecond)
        else none
      else none
  | _ => none

/-- Go: `strings.Split(name, ".")` on the character list. -/
def splitOnDot : List Char → List (List Char)
  | [] => [[]]
  | c :: rest =>
      let r := splitOnDot rest
      if c = '.' then [] :: r
      else
        match r with
        | [] => [[c]]
        | g :: gs => (c :: g) :: gs

/-- `strings.Split(name, ".")[2]`, defaulting to `[]` (only used where the
index is known to exist). -/
def suffixPart (name : String) : List Char :=
  (splitOnDot name.data).getD 2 []

/-- Does the ten-character tail look like `20` + 8 digits
(regex `20[0-9]{8}`)? -/
def isArchiveSuffix (cs : List Char) : Bool :=
  match cs with
  | '2' :: '0' :: rest => rest.length == 8 && rest.all Char.isDigit
  | _ => false

/-- Go: `file.Name() == s.rotatedFilenamePattern.FindString(file.Name())`
with the regex `(DEBUG|INFO|WARNING|ERROR|FATAL)\.log\.20[0-9]{8}`.
The whole name equals the leftmost match exactly when the name is in the
regex's language; since level names and the digit suffix contain no dot,
that language is precisely the set of names whose dot-split is
`[LEVEL, log, 20dddddddd]`. -/
def matchesRotatedPattern (name : String) : Bool :=
  match splitOnDot name.data with
  | [lvl, mid, suffix] =>
      levelNamesList.contains (String.mk lvl) && mid == ("log".data) && isArchiveSuffix suffix
  | _ => false

/-! ### FileBackend (filebackend.go)

The `sync.Mutex` field is not part of this state-passing embedding; the
lock discipline of the four code paths is modelled separately below by
their lock-action traces. -/

structure FileBackend where
  dir : String
  /-- Go: `writer [levelCount]*syncBufio`, indexed by level ordinal. -/
  writer : List (Option SyncBufio)
  rotateByHour : Bool
  lastRotateTime : Int
  keepHours : Int
deriving DecidableEq, Repr

/-- The loop indices `levelMin .. levelMax` (= `0 .. 4`). -/
def levelIndexList : List Nat := [0, 1, 2, 3, 4]

/-- Go: `(s *FileBackend) openSyncBufio(level, filepath)`: open (or
create) the file in append mode and install a fresh writer in the slot. -/
def FileBackend.openSyncBufio (s : FileBackend) (level : Nat) (filepath : String)
    (fs : FS) : FileBackend × FS :=
  let (ino, fs1) := fs.openAppendCreate filepath
  ({ s with writer := s.writer.set level (some (newSyncBufio ino filepath)) }, fs1)

/-- Go: `(s *FileBackend) flush()` — the loop
`for i := 0; i < int(levelCount); i++`: skip nil slots, otherwise flush
the buffer and sync the file. -/
def flushGo : List Nat → FileBackend → FS → FileBackend × FS × List Event
  | [], s, fs => (s, fs, [])
  | i :: rest, s, fs =>
      match s.writer.getD i none with
      | none => flushGo rest s fs
      | some w =>
          let (w1, fs1) := w.flush fs
          let s1 := { s with writer := s.writer.set i (some w1) }
          let (s2, fs2, evs) := flushGo rest s1 fs1
          (s2, fs2, Event.syncFile w.inode :: evs)

def FileBackend.flush (s : FileBackend) (fs : FS) : FileBackend × FS × List Event :=
  flushGo levelIndexList s fs

/-- Go: `(s *FileBackend) Flush()` — `flush` under the mutex. -/
def FileBackend.Flush (s : FileBackend) (fs : FS) : FileBackend × FS × List Event :=
  s.flush fs

/-- Go: `(s *FileBackend) close()`: `s.writer[i].close()` dereferences the
slot pointer, so a nil slot (e.g. after an earlier `close`) panics;
otherwise the writer is closed and the slot cleared. -/
def closeGo : List Nat → FileBackend → FS → GoResult (FileBackend × FS × List Event)
  | [], s, fs => .ok (s, fs, [])
  | i :: rest, s, fs =>
      match s.writer.getD i none with
      | none => .panicked
      | some w =>
          let (fs1, evs1) := w.close fs
          let s1 := { s with writer := s.writer.set i none }
          match closeGo rest s1 fs1 with
          | .panicked => .panicked
          | .ok (s2, fs2, evs2) => .ok (s2, fs2, evs1 ++ evs2)

def FileBackend.close (s : FileBackend) (fs : FS) : GoResult (FileBackend × FS × List Event) :=
  closeGo levelIndexList s fs

/-- Go: `(s *FileBackend) Close()` — `close` under the mutex. -/
def FileBackend.Close (s : FileBackend) (fs : FS) : GoResult (FileBackend × FS × List Event) :=
  s.close fs

/-- Go: `(s *FileBackend) Log(level, content)`: a level inside
`[levelMin, levelMax]` is written to its slot (a nil slot panics — the
`write` method dereferences its receiver), any other level is only
reported to stderr; afterwards, `Fatal` triggers `s.flush()`. -/
def FileBackend.Log (s : FileBackend) (level : Level) (content : Bytes) (fs : FS) :
    GoResult (FileBackend × FS × List Event) :=
  let step1 : GoResult (FileBackend × List Event) :=
    if levelMin ≤ level ∧ level ≤ levelMax then
      match s.writer.getD level.toNat none with
      | none => .panicked
      | some w => .ok ({ s with writer := s.writer.set level.toNat (some (w.write content)) }, [])
    else
      .ok (s, [Event.stderrMsg ("invalid level")])
  match step1 with
  | .panicked => .panicked
  | .ok (s1, evs1) =>
      if level = Fatal then
        let (s2, fs2, evs2) := s1.flush fs
        .ok (s2, fs2, evs1 ++ evs2)
      else
        .ok (s1, fs, evs1)

/-- Go: `(s *FileBackend) SetRotateFile(rotateByHour, keepHours)`; `now`
is the value `s.getNowTime()` returns. -/
def FileBackend.SetRotateFile (s : FileBackend) (rotateByHour : Bool) (keepHours : Int)
    (now : Int) : FileBackend :=
  if rotateByHour then
    { s with rotateByHour := rotateByHour, keepHours := keepHours,
             lastRotateTime := unixOf (truncateToHour now) }
  else
    { s with rotateByHour := rotateByHour, lastRotateTime := 0 }

/-- The rename loop of `doRotateByHour`: for every level,
`os.Rename(s.writer[i].filePath, s.writer[i].filePath + "." + suffix)`
(the returned error is discarded); dereferencing a nil slot panics. -/
def renameGo (suffix : String) : List Nat → FileBackend → FS → GoResult (FS × List Event)
  | [], _, fs => .ok (fs, [])
  | i :: rest, s, fs =>
      match s.writer.getD i none with
      | none => .panicked
      | some w =>
          let newName := w.filePath ++ "." ++ suffix
          let fs1 := fs.renameFile w.filePath newName
          match renameGo suffix rest s fs1 with
          | .panicked => .panicked
          | .ok (fs2, evs) => .ok (fs2, Event.rename w.filePath newName :: evs)

/-- The "rotate files" half of `doRotateByHour`: rename every level's
active file when the current hour bucket is strictly after
`lastRotateTime`.  Note that the source computes `ru := rotateTime.Unix()`
and discards it (`_ = ru`); `s.lastRotateTime` is never assigned. -/
def FileBackend.rotatePhase (s : FileBackend) (now : Int) (fs : FS) :
    GoResult (FS × List Event) :=
  let rotateTime := truncateToHour now
  if unixOf rotateTime > s.lastRotateTime then
    renameGo (formatDatetimeSuffix rotateTime) levelIndexList s fs
  else
    .ok (fs, [])

/-- Go: `(s *FileBackend) shouldDelete(name, keepHours)`; `now` is the
value `s.getNowTime()` returns.  `strings.Split(name, ".")[2]` panics
when the name contains fewer than two dots. -/
def shouldDelete (name : String) (keepHours : Int) (now : Int) :
    GoResult (Bool × List Event) :=
  match splitOnDot name.data with
  | _ :: _ :: suffix :: _ =>
      match parseDatetimeSuffix (String.mk suffix) with
      | none => .ok (false, [Event.stderrMsg ("parse datetime suffix failed")])
      | some fileTime =>
          let fileTime1 := fileTime + keepHours * nsPerHour
          let removePoint := truncateToHour now
          if ¬ fileTime1 > removePoint then .ok (true, [])
          else .ok (false, [])
  | _ => .panicked

/-- The "remove old files" loop of `doRotateByHour`: for every directory
entry whose name is exactly the pattern match, delete it when
`shouldDelete` says so (`os.Remove` failures cannot occur in the model,
so that stderr branch is dead). -/
def retentionSweep (keepHours now : Int) : List String → FS → GoResult (FS × List Event)
  | [], fs => .ok (fs, [])
  | name :: rest, fs =>
      if matchesRotatedPattern name then
        match shouldDelete name keepHours now with
        | .panicked => .panicked
        | .ok (del, evs1) =>
            if del then
              match retentionSweep keepHours now rest (fs.removeFile name) with
              | .panicked => .panicked
              | .ok (fs2, evs2) => .ok (fs2, evs1 ++ Event.removeFile name :: evs2)
            else
              match retentionSweep keepHours now rest fs with
              | .panicked => .panicked
              | .ok (fs2, evs2) => .ok (fs2, evs1 ++ evs2)
      else
        match retentionSweep keepHours now rest fs with
        | .panicked => .panicked
        | .ok (fs2, evs2) => .ok (fs2, evs2)

/-- Go: `(s *FileBackend) doRotateByHour()`; `now` is the value
`s.getNowTime()` returns.  (`ioutil.ReadDir` cannot fail in the model,
so its error branch is dead.) -/
def FileBackend.doRotateByHour (s : FileBackend) (now : Int) (fs : FS) :
    GoResult (FileBackend × FS × List Event) :=
  if s.rotateByHour = false then .ok (s, fs, []) else
  match s.rotatePhase now fs with
  | .panicked => .panicked
  | .ok (fs1, evs1) =>
      if s.keepHours ≤ 0 then .ok (s, fs1, evs1)
      else
        match retentionSweep s.keepHours now fs1.fileNames fs1 with
        | .panicked => .panicked
        | .ok (fs2, evs2) => .ok (s, fs2, evs1 ++ evs2)

/-- Go: `(s *FileBackend) doMonitorFiles()`: for each level, skip nil
slots; stat the recorded path; **if the file exists the whole function
returns** (the source's `return` where the spec describes a `continue`);
if it is missing, reopen it via `openSyncBufio` (under the lock) and
close the old, detached writer. -/
def monitorGo : List Nat → FileBackend → FS → FileBackend × FS × List Event
  | [], s, fs => (s, fs, [])
  | i :: rest, s, fs =>
      match s.writer.getD i none with
      | none => monitorGo rest s fs
      | some w =>
          if fs.statExists w.filePath then (s, fs, [])
          else
            let (s1, fs1) := s.openSyncBufio i w.filePath fs
            let (fs2, evs1) := w.close fs1
            let (s2, fs3, evs2) := monitorGo rest s1 fs2
            (s2, fs3, evs1 ++ evs2)

def FileBackend.doMonitorFiles (s : FileBackend) (fs : FS) :
    FileBackend × FS × List Event :=
  monitorGo levelIndexList s fs

/-! ### Lock discipline

`FileBackend` carries a single `sync.Mutex`.  Each of the four code paths
is abstracted to the sequence of lock operations, accesses to the shared
writer-slot/rotation state, and file-system calls it performs, read off
the source line by line. -/

inductive LockAction where
  | acquire
  | release
  | stateAccess
  | ioAction
deriving DecidableEq, Repr

/-- `Log`: `s.mutex.Lock()`; `defer s.mutex.Unlock()`; write to
`s.writer[level]`; possibly `s.flush()` (more slot accesses); unlock on
return. -/
def logLockTrace : List LockAction :=
  [.acquire, .stateAccess, .stateAccess, .release]

/-- `Flush`: `s.mutex.Lock()`; `defer s.mutex.Unlock()`; `s.flush()`
walks the slots. -/
def flushLockTrace : List LockAction :=
  [.acquire, .stateAccess, .release]

/-- `Close`: `s.mutex.Lock()`; `defer s.mutex.Unlock()`; `s.close()`
walks and clears the slots. -/
def closeLockTrace : List LockAction :=
  [.acquire, .stateAccess, .release]

/-- `doRotateByHour`: reads `s.rotateByHour`, `s.lastRotateTime`, every
`s.writer[i].filePath` (while renaming files), `s.keepHours`, then lists
the directory and removes files.  It never touches `s.mutex`. -/
def doRotateByHourLockTrace : List LockAction :=
  [.stateAccess, .stateAccess, .stateAccess, .ioAction, .stateAccess, .ioAction, .ioAction]

/-- `doMonitorFiles`: reads `s.writer[i]` and its `filePath` with no lock
held, stats the file, then — only inside `lockerWrapper` — locks, writes
the slot via `openSyncBufio`, unlocks; finally closes the old writer
outside the lock. -/
def doMonitorFilesLockTrace : List LockAction :=
  [.stateAccess, .ioAction, .acquire, .stateAccess, .release, .ioAction]

/-- Every access to the shared state happens while the lock is held
(`d` is the current hold depth). -/
def lockedFrom (d : Nat) : List LockAction → Bool
  | [] => true
  | .acquire :: r => lockedFrom (d + 1) r
  | .release :: r => lockedFrom (d - 1) r
  | .stateAccess :: r => decide (0 < d) && lockedFrom d r
  | .ioAction :: r => lockedFrom d r

def lockHeldDuringState (tr : List LockAction) : Bool :=
  lockedFrom 0 tr

/-- The path never re-acquires the (non-reentrant) mutex while holding
it, never releases a lock it does not hold, and ends with the lock
released — so it cannot deadlock itself or leave the lock held. -/
def deadlockFreeFrom (d : Nat) : List LockAction → Bool
  | [] => decide (d = 0)
  | .acquire :: r => decide (d = 0) && deadlockFreeFrom (d + 1) r
  | .release :: r => decide (0 < d) && deadlockFreeFrom (d - 1) r
  | .stateAccess :: r => deadlockFreeFrom d r
  | .ioAction :: r => deadlockFreeFrom d r

def deadlockFree (tr : List LockAction) : Bool :=
  deadlockFreeFrom 0 tr

/-! ### Result accessors and event predicates -/

def GoResult.stateOf : GoResult (FileBackend × FS × List Event) → Option FileBackend
  | .ok (s, _, _) => some s
  | .panicked => none

def GoResult.fsOf : GoResult (FileBackend × FS × List Event) → Option FS
  | .ok (_, fs, _) => some fs
  | .panicked => none

def GoResult.eventsOf : GoResult (FileBackend × FS × List Event) → List Event
  | .ok (_, _, evs) => evs
  | .panicked => []

def Event.isRename : Event → Bool
  | .rename _ _ => true
  | _ => false

def Event.isRemove : Event → Bool
  | .removeFile _ => true
  | _ => false

/-! ### Concrete fixtures -/

/-- A freshly constructed backend state: slot `i` holds a writer on inode
`i` for file `<LEVEL>.log`, as `NewFileBackend` produces. -/
def liveBackend : FileBackend :=
  { dir := "log"
    writer := [some (newSyncBufio 0 ("DEBUG.log")), some (newSyncBufio 1 ("INFO.log")),
               some (newSyncBufio 2 ("WARNING.log")), some (newSyncBufio 3 ("ERROR.log")),
               some (newSyncBufio 4 ("FATAL.log"))]
    rotateByHour := false
    lastRotateTime := 0
    keepHours := 0 }

/-- The matching filesystem: the five empty active files. -/
def liveFS : FS :=
  { dir := [("DEBUG.log", 0), ("INFO.log", 1), ("WARNING.log", 2),
            ("ERROR.log", 3), ("FATAL.log", 4)]
    inodes := [(0, []), (1, []), (2, []), (3, []), (4, [])]
    nextInode := 5 }

/-- The backend state `Close` leaves behind: every slot cleared. -/
def closedBackend : FileBackend :=
  { liveBackend with writer := [none, none, none, none, none] }

/-- 2019-07-10 01:00:00 UTC, in nanoseconds. -/
def hourBucket0 : Int := (daysFromCivil 2019 7 10 * 86400 + 1 * 3600) * nsPerSecond

/-- 2019-07-10 02:13:14 UTC. -/
def tickTime1 : Int := (daysFromCivil 2019 7 10 * 86400 + 2 * 3600 + 13 * 60 + 14) * nsPerSecond

/-- 2019-07-10 02:14:14 UTC — one minute later, same hour bucket. -/
def tickTime2 : Int := tickTime1 + 60 * nsPerSecond

/-- `liveBackend` with hourly rotation on, retention off, last rotation
in the 01:00 bucket. -/
def rotatingBackend : FileBackend :=
  { liveBackend with rotateByHour := true, lastRotateTime := unixOf hourBucket0 }

/-- The filesystem after the first rotation tick of `rotatingBackend` at
`tickTime1`. -/
def fsAfterFirstRotate : FS :=
  (rotatingBackend.doRotateByHour tickTime1 liveFS).fsOf.getD liveFS

/-- A directory where only `DEBUG.log` survives: the active files of all
the other levels have been removed externally. -/
def partialFS : FS :=
  { dir := [("DEBUG.log", 0)], inodes := [(0, [])], nextInode := 1 }

/-- Is the archive named `name` due for deletion?  True exactly when its
suffix parses and the parsed hour bucket plus `keep` hours is at or
before the current hour bucket. -/
def deletionDue (keep now : Int) (name : String) : Bool :=
  match parseDatetimeSuffix (String.mk (suffixPart name)) with
  | none => false
  | some t => decide (t + keep * nsPerHour ≤ truncateToHour now)

/-- `rotatingBackend` with a one-hour retention window. -/
def rotKeepBackend : FileBackend := { rotatingBackend with keepHours := 1 }

/-- `liveFS` plus a stale archive from the 2019-07-09 01:00 bucket. -/
def archFS : FS :=
  { dir := liveFS.dir ++ [("INFO.log.2019070901", 5)]
    inodes := liveFS.inodes ++ [(5, [3])]
    nextInode := 6 }

/-! ### Helper lemmas -/

theorem pattern_split_shape (name : String) (h : matchesRotatedPattern name = true) :
    ∃ l m c, splitOnDot name.data = [l, m, c] := by
  unfold matchesRotatedPattern at h
  rcases hs : splitOnDot name.data with _ | ⟨a, _ | ⟨b, tl⟩⟩
  · rw [hs] at h; simp at h
  · rw [hs] at h; simp at h
  · rcases tl with _ | ⟨c, tl2⟩
    · rw [hs] at h; simp at h
    · rcases tl2 with _ | ⟨e, tl3⟩
      · exact ⟨a, b, c, rfl⟩
      · rw [hs] at h; simp at h

theorem shouldDelete_eq (name : String) (keep now : Int) (l m c : List Char)
    (hs : splitOnDot name.data = [l, m, c]) :
    ∃ evs, shouldDelete name keep now = .ok (deletionDue keep now name, evs) ∧
      ∀ p, Event.removeFile p ∉ evs := by
  unfold shouldDelete deletionDue suffixPart
  rw [hs]
  simp only [List.getD_cons_succ, List.getD_cons_zero]
  rcases hp : parseDatetimeSuffix (String.mk c) with _ | t
  · exact ⟨_, rfl, by intro p; simp⟩
  · by_cases hc : t + keep * nsPerHour ≤ truncateToHour now
    · refine ⟨[], ?_, by intro p; simp⟩
      simp only [if_pos (show ¬ truncateToHour now < t + keep * nsPerHour by omega)]
      simp [hc]
    · refine ⟨[], ?_, by intro p; simp⟩
      simp only [if_neg (show ¬ ¬ truncateToHour now < t + keep * nsPerHour by omega)]
      simp [hc]

theorem retentionSweep_removeMem (keep now : Int) :
    ∀ (names : List String) (fs fs' : FS) (evs : List Event),
      retentionSweep keep now names fs = .ok (fs', evs) →
      ∀ p, (Event.removeFile p ∈ evs ↔
        p ∈ names ∧ matchesRotatedPattern p = true ∧ deletionDue keep now p = true) := by
  intro names
  induction names with
  | nil =>
      intro fs fs' evs h p
      unfold retentionSweep at h
      simp only [GoResult.ok.injEq, Prod.mk.injEq] at h
      obtain ⟨h1, h2⟩ := h
      subst h2
      simp
  | cons n rest ih =>
      intro fs fs' evs h p
      unfold retentionSweep at h
      by_cases hpat : matchesRotatedPattern n = true
      · rw [if_pos hpat] at h
        obtain ⟨l, m, c, hs⟩ := pattern_split_shape n hpat
        obtain ⟨evs1, hsd, hnorem⟩ := shouldDelete_eq n keep now l m c hs
        simp only [hsd] at h
        by_cases hdel : deletionDue keep now n = true
        · rw [if_pos hdel] at h
          cases hsw : retentionSweep keep now rest (fs.removeFile n) with
          | panicked => rw [hsw] at h; simp at h
          | ok pr =>
              obtain ⟨fs2, evs2⟩ := pr
              rw [hsw] at h
              simp only [GoResult.ok.injEq, Prod.mk.injEq] at h
              obtain ⟨h1, h2⟩ := h
              subst h2
              have ihm := ih (fs.removeFile n) fs2 evs2 hsw p
              simp only [List.mem_append, List.mem_cons, ihm]
              constructor
              · rintro (h1 | h2 | h3)
                · exact absurd h1 (hnorem p)
                · injection h2 with hpn
                  subst hpn
                  exact ⟨by simp, hpat, hdel⟩
                · exact ⟨by simp [h3.1], h3.2.1, h3.2.2⟩
              · rintro ⟨hmem, hp2, hp3⟩
                rcases hmem with rfl | hmem2
                · exact Or.inr (Or.inl rfl)
                · exact Or.inr (Or.inr ⟨hmem2, hp2, hp3⟩)
        · rw [Bool.not_eq_true] at hdel
          rw [if_neg (by simp [hdel])] at h
          cases hsw : retentionSweep keep now rest fs with
          | panicked => rw [hsw] at h; simp at h
          | ok pr =>
              obtain ⟨fs2, evs2⟩ := pr
              rw [hsw] at h
              simp only [GoResult.ok.injEq, Prod.mk.injEq] at h
              obtain ⟨h1, h2⟩ := h
              subst h2
              have ihm := ih fs fs2 evs2 hsw p
              simp only [List.mem_append, ihm]
              constructor
              · rintro (h1 | h3)
                · exact absurd h1 (hnorem p)
                · exact ⟨by simp [h3.1], h3.2.1, h3.2.2⟩
              · rintro ⟨hmem, hp2, hp3⟩
                rcases List.mem_cons.mp hmem with rfl | hmem2
                · rw [hdel] at hp3; exact absurd hp3 (by simp)
                · exact Or.inr ⟨hmem2, hp2, hp3⟩
      · rw [if_neg hpat] at h
        cases hsw : retentionSweep keep now rest fs with
        | panicked => rw [hsw] at h; simp at h
        | ok pr =>
            obtain ⟨fs2, evs2⟩ := pr
            rw [hsw] at h
            simp only [GoResult.ok.injEq, Prod.mk.injEq] at h
            obtain ⟨h1, h2⟩ := h
            subst h2
            have ihm := ih fs fs2 evs2 hsw p
            rw [ihm]
            constructor
            · rintro ⟨hmem, hp2, hp3⟩
              exact ⟨by simp [hmem], hp2, hp3⟩
            · rintro ⟨hmem, hp2, hp3⟩
              rcases List.mem_cons.mp hmem with rfl | hmem2
              · exact absurd hp2 hpat
              · exact ⟨hmem2, hp2, hp3⟩

theorem renameGo_no_removes (suffix : String) :
    ∀ (idxs : List Nat) (s : FileBackend) (fs fs' : FS) (evs : List Event),
      renameGo suffix idxs s fs = .ok (fs', evs) → ∀ p, Event.removeFile p ∉ evs := by
  intro idxs
  induction idxs with
  | nil =>
      intro s fs fs' evs h p
      unfold renameGo at h
      simp only [GoResult.ok.injEq, Prod.mk.injEq] at h
      obtain ⟨h1, h2⟩ := h
      subst h2
      simp
  | cons i rest ih =>
      intro s fs fs' evs h p
      unfold renameGo at h
      cases hslot : s.writer.getD i none with
      | none => rw [hslot] at h; simp at h
      | some w =>
          rw [hslot] at h
          dsimp only at h
          cases hrec : renameGo suffix rest s (fs.renameFile w.filePath
              (w.filePath ++ "." ++ suffix)) with
          | panicked => rw [hrec] at h; simp at h
          | ok pr =>
              obtain ⟨fs2, evs2⟩ := pr
              rw [hrec] at h
              simp only [GoResult.ok.injEq, Prod.mk.injEq] at h
              obtain ⟨h1, h2⟩ := h
              subst h2
              intro hmem
              rcases List.mem_cons.mp hmem with heq | hmem2
              · exact Event.noConfusion heq
              · exact ih s _ fs2 evs2 hrec p hmem2

theorem rotatePhase_no_removes (s : FileBackend) (now : Int) (fs fs1 : FS)
    (evs1 : List Event) (hmid : s.rotatePhase now fs = .ok (fs1, evs1)) :
    ∀ p, Event.removeFile p ∉ evs1 := by
  intro p
  unfold FileBackend.rotatePhase at hmid
  by_cases hb : unixOf (truncateToHour now) > s.lastRotateTime
  · rw [if_pos hb] at hmid
    exact renameGo_no_removes _ _ _ _ _ _ hmid p
  · rw [if_neg hb] at hmid
    simp only [GoResult.ok.injEq, Prod.mk.injEq] at hmid
    obtain ⟨h1, h2⟩ := hmid
    subst h2
    simp

theorem lookupInode_map_of_keyfix (j : Nat) (f : Nat × Bytes → Nat × Bytes)
    (hkey : ∀ e, (f e).1 = e.1) (hfix : ∀ e, e.1 = j → f e = e) :
    ∀ l, lookupInode (l.map f) j = lookupInode l j := by
  intro l
  induction l with
  | nil => rfl
  | cons e rest ih =>
      by_cases he : e.1 = j
      · rw [List.map_cons, hfix e he]
        simp [lookupInode, he, ih]
      · rw [List.map_cons]
        simp [lookupInode, hkey, he, ih]

/-! ### Claim theorems -/

/-- C1: in a rotation tick whose hour bucket is strictly after
`lastRotateTime` the code renames every level's file, but — contrary to
the claim — it never assigns `lastRotateTime` (the computed
`ru := rotateTime.Unix()` is discarded), so a second tick in the very
same hour bucket performs the renames again.  Evaluated at the failing
input: last rotation in the 01:00 bucket, two ticks at 02:13:14 and
02:14:14. -/
theorem C1_rotation_tick_renames_again_without_timestamp_update :
    (rotatingBackend.doRotateByHour tickTime1 liveFS).eventsOf.any Event.isRename = true ∧
    (rotatingBackend.doRotateByHour tickTime1 liveFS).stateOf = some rotatingBackend ∧
    rotatingBackend.lastRotateTime ≠ unixOf (truncateToHour tickTime1) ∧
    (rotatingBackend.doRotateByHour tickTime1 liveFS).fsOf = some fsAfterFirstRotate ∧
    truncateToHour tickTime2 = truncateToHour tickTime1 ∧
    (rotatingBackend.doRotateByHour tickTime2 fsAfterFirstRotate).eventsOf.any
      Event.isRename = true := by
  decide

/-- C2 (counterexample): the claim says `Log` after `Close` fails only
diagnostically and does not crash; but after `Close` clears the slots,
`Log` at the valid level `Debug` dereferences the nil slot and panics. -/
theorem C2_log_after_close_panics :
    (liveBackend.Close liveFS).stateOf = some closedBackend ∧
    closedBackend.Log Debug [72] liveFS = .panicked := by
  decide

/-- C2 (amended): after `Close` has cleared every writer slot, `Log` with
a valid level dereferences the nil slot and panics; only a call with an
invalid (out-of-range) level fails diagnostically, leaving all state
unchanged. -/
theorem C2_amended_log_after_close (s : FileBackend) (fs : FS) (level : Level)
    (content : Bytes) (hw : s.writer = [none, none, none, none, none]) :
    (0 ≤ level → level ≤ 4 → s.Log level content fs = .panicked) ∧
    (¬ (0 ≤ level ∧ level ≤ 4) →
      s.Log level content fs = .ok (s, fs, [Event.stderrMsg ("invalid level")])) := by
  obtain ⟨d, w, rot, lrt, keep⟩ := s
  simp only at hw
  subst hw
  constructor
  · intro h1 h2
    interval_cases level <;> rfl
  · intro h
    have hne : level ≠ (4 : Int) := fun hl => h (by rw [hl]; exact ⟨by norm_num, by norm_num⟩)
    simp only [FileBackend.Log, levelMin, levelMax, Debug, Fatal, if_neg h, if_neg hne]

/-- C2 (witness for the amended theorem), at level `Debug`. -/
theorem C2_amended_log_after_close_witness :
    closedBackend.Log Debug [72] liveFS = .panicked :=
  (C2_amended_log_after_close closedBackend liveFS Debug [72] rfl).1
    (by decide) (by decide)

/-- C3: the claim says a monitor tick handles every level independently,
statting each level's file and healing the missing ones.  The code
instead executes `return` (not `continue`) as soon as it finds a level
whose file exists: with `DEBUG.log` present and `INFO.log` (a live slot)
missing, the tick does nothing at all — `INFO.log` is not recreated. -/
theorem C3_monitor_early_return_leaves_missing_file :
    liveBackend.doMonitorFiles partialFS = (liveBackend, partialFS, []) ∧
    FS.statExists partialFS ("DEBUG.log") = true ∧
    FS.statExists partialFS ("INFO.log") = false ∧
    (liveBackend.writer.getD 1 none).isSome = true := by
  decide

/-- C4 (counterexample): the claim says all four paths acquire the mutex
for their critical work, but the rotate task's trace contains writer- and
rotation-state accesses with the lock never held. -/
theorem C4_rotate_task_takes_no_lock :
    lockHeldDuringState doRotateByHourLockTrace = false := by
  decide

/-- C4 (amended): `Log` and `Flush` (and `Close`) hold the single mutex
for all their shared-state accesses; the monitor task holds it only
around the slot replacement, reading the slots and closing the old
writer outside it; the rotate task accesses shared state with the lock
never held.  No path acquires the mutex while already holding it and
every path ends with it released, so none can deadlock. -/
theorem C4_amended_lock_discipline :
    lockHeldDuringState logLockTrace = true ∧
    lockHeldDuringState flushLockTrace = true ∧
    lockHeldDuringState closeLockTrace = true ∧
    lockHeldDuringState doMonitorFilesLockTrace = false ∧
    lockHeldDuringState doRotateByHourLockTrace = false ∧
    deadlockFree logLockTrace = true ∧
    deadlockFree flushLockTrace = true ∧
    deadlockFree closeLockTrace = true ∧
    deadlockFree doMonitorFilesLockTrace = true ∧
    deadlockFree doRotateByHourLockTrace = true := by
  decide

/-- C5: a `Log` at the maximum level `Fatal` empties the buffer of every
level's slot, appends each buffer to its file and emits a sync for every
slot before returning; a `Log` at any valid non-maximum level leaves the
filesystem untouched and emits no flush or sync event. -/
theorem C5_fatal_flushes_all_levels (s : FileBackend) (fs : FS) (content : Bytes)
    (w0 w1 w2 w3 w4 : SyncBufio)
    (hw : s.writer = [some w0, some w1, some w2, some w3, some w4]) :
    s.Log Fatal content fs =
      .ok ({ s with writer :=
               [some { w0 with buffer := [] }, some { w1 with buffer := [] },
                some { w2 with buffer := [] }, some { w3 with buffer := [] },
                some { w4 with buffer := ([] : Bytes), writeSize := w4.writeSize + content.length }] },
           ((((fs.appendToInode w0.inode w0.buffer).appendToInode w1.inode
              w1.buffer).appendToInode w2.inode w2.buffer).appendToInode w3.inode
              w3.buffer).appendToInode w4.inode (w4.buffer ++ content),
           [Event.syncFile w0.inode, Event.syncFile w1.inode, Event.syncFile w2.inode,
            Event.syncFile w3.inode, Event.syncFile w4.inode]) ∧
    (∀ level, 0 ≤ level → level < 4 →
      (s.Log level content fs).fsOf = some fs ∧ (s.Log level content fs).eventsOf = []) := by
  obtain ⟨d, w, rot, lrt, keep⟩ := s
  simp only at hw
  subst hw
  constructor
  · rfl
  · intro level h1 h2
    interval_cases level <;> exact ⟨rfl, rfl⟩

/-- C5 (witness): the sync events of a fatal log on a fresh backend. -/
theorem C5_fatal_flushes_all_levels_witness :
    (liveBackend.Log Fatal [65] liveFS).eventsOf =
      [Event.syncFile 0, Event.syncFile 1, Event.syncFile 2,
       Event.syncFile 3, Event.syncFile 4] := by
  rw [(C5_fatal_flushes_all_levels liveBackend liveFS [65] _ _ _ _ _ rfl).1]
  decide

/-- C6: a rotation tick with `keepHours ≤ 0` removes no file at all;
with rotation enabled and `keepHours > 0`, a directory entry is removed
exactly when its name is in the post-rename directory listing, matches
the archive pattern, and its parsed hour-bucket suffix plus `keepHours`
hours is at or before the current hour bucket. -/
theorem C6_retention_delete_iff_expired (s : FileBackend) (now : Int)
    (fs fs1 : FS) (evs1 : List Event) (s' : FileBackend) (fs' : FS)
    (evs : List Event)
    (hmid : s.rotatePhase now fs = .ok (fs1, evs1))
    (h : s.doRotateByHour now fs = .ok (s', fs', evs)) :
    (s.keepHours ≤ 0 → ∀ p, Event.removeFile p ∉ evs) ∧
    (s.rotateByHour = true → 0 < s.keepHours →
      ∀ p, (Event.removeFile p ∈ evs ↔
        p ∈ fs1.fileNames ∧ matchesRotatedPattern p = true ∧
        deletionDue s.keepHours now p = true)) := by
  constructor
  · intro hk p
    unfold FileBackend.doRotateByHour at h
    by_cases hr : s.rotateByHour = false
    · rw [if_pos hr] at h
      simp only [GoResult.ok.injEq, Prod.mk.injEq] at h
      obtain ⟨h1, h2, h3⟩ := h
      subst h3
      simp
    · rw [if_neg hr] at h
      simp only [hmid] at h
      rw [if_pos hk] at h
      simp only [GoResult.ok.injEq, Prod.mk.injEq] at h
      obtain ⟨h1, h2, h3⟩ := h
      subst h3
      exact rotatePhase_no_removes s now fs fs1 evs1 hmid p
  · intro hrot hk p
    unfold FileBackend.doRotateByHour at h
    rw [if_neg (by simp [hrot])] at h
    simp only [hmid] at h
    rw [if_neg (by omega)] at h
    cases hsw : retentionSweep s.keepHours now fs1.fileNames fs1 with
    | panicked => rw [hsw] at h; simp at h
    | ok pr =>
        obtain ⟨fs2, evs2⟩ := pr
        rw [hsw] at h
        simp only [GoResult.ok.injEq, Prod.mk.injEq] at h
        obtain ⟨h1, h2, h3⟩ := h
        subst h3
        have hsweep := retentionSweep_removeMem s.keepHours now fs1.fileNames fs1 fs2 evs2 hsw p
        simp only [List.mem_append, hsweep]
        constructor
        · rintro (hin1 | hin2)
          · exact absurd hin1 (rotatePhase_no_removes s now fs fs1 evs1 hmid p)
          · exact hin2
        · intro hr2
          exact Or.inr hr2

/-- C6 (witness): with `keepHours = 1`, the stale archive
`INFO.log.2019070901` is removed by the 02:13:14 rotation tick. -/
theorem C6_retention_delete_iff_expired_witness :
    Event.removeFile ("INFO.log.2019070901") ∈
      (rotKeepBackend.doRotateByHour tickTime1 archFS).eventsOf := by
  have hmid : rotKeepBackend.rotatePhase tickTime1 archFS =
      .ok ({ dir := [("FATAL.log.2019071002", 4), ("ERROR.log.2019071002", 3),
                     ("WARNING.log.2019071002", 2), ("INFO.log.2019071002", 1),
                     ("DEBUG.log.2019071002", 0), ("INFO.log.2019070901", 5)]
             inodes := [(0, []), (1, []), (2, []), (3, []), (4, []), (5, [3])]
             nextInode := 6 },
           [Event.rename ("DEBUG.log") ("DEBUG.log.2019071002"),
            Event.rename ("INFO.log") ("INFO.log.2019071002"),
            Event.rename ("WARNING.log") ("WARNING.log.2019071002"),
            Event.rename ("ERROR.log") ("ERROR.log.2019071002"),
            Event.rename ("FATAL.log") ("FATAL.log.2019071002")]) := by
    decide
  have h : rotKeepBackend.doRotateByHour tickTime1 archFS =
      .ok (rotKeepBackend,
           { dir := [("FATAL.log.2019071002", 4), ("ERROR.log.2019071002", 3),
                     ("WARNING.log.2019071002", 2), ("INFO.log.2019071002", 1),
                     ("DEBUG.log.2019071002", 0)]
             inodes := [(0, []), (1, []), (2, []), (3, []), (4, []), (5, [3])]
             nextInode := 6 },
           [Event.rename ("DEBUG.log") ("DEBUG.log.2019071002"),
            Event.rename ("INFO.log") ("INFO.log.2019071002"),
            Event.rename ("WARNING.log") ("WARNING.log.2019071002"),
            Event.rename ("ERROR.log") ("ERROR.log.2019071002"),
            Event.rename ("FATAL.log") ("FATAL.log.2019071002"),
            Event.removeFile ("INFO.log.2019070901")]) := by
    decide
  rw [h]
  exact ((C6_retention_delete_iff_expired rotKeepBackend tickTime1 archFS _ _ _ _ _
    hmid h).2 rfl (by decide) ("INFO.log.2019070901")).mpr
    ⟨by decide, by decide, by decide⟩

set_option maxHeartbeats 2000000 in
/-- C7: when every level's active file is missing at the start of a
monitor tick (and every slot is live, with the standard file names and
handle inodes older than the allocator's next one), that single tick
reopens an empty file for every level at its recorded path, installs
fresh writers, closes every old handle, and touches nothing else: other
directory entries and the contents of every other inode are unchanged. -/
theorem C7_monitor_heals_all_missing (s : FileBackend) (fs : FS)
    (w0 w1 w2 w3 w4 : SyncBufio)
    (hw : s.writer = [some w0, some w1, some w2, some w3, some w4])
    (hp0 : w0.filePath = "DEBUG.log") (hp1 : w1.filePath = "INFO.log")
    (hp2 : w2.filePath = "WARNING.log") (hp3 : w3.filePath = "ERROR.log")
    (hp4 : w4.filePath = "FATAL.log")
    (hm0 : lookupDir fs.dir ("DEBUG.log") = none)
    (hm1 : lookupDir fs.dir ("INFO.log") = none)
    (hm2 : lookupDir fs.dir ("WARNING.log") = none)
    (hm3 : lookupDir fs.dir ("ERROR.log") = none)
    (hm4 : lookupDir fs.dir ("FATAL.log") = none)
    (hi0 : w0.inode < fs.nextInode) (hi1 : w1.inode < fs.nextInode)
    (hi2 : w2.inode < fs.nextInode) (hi3 : w3.inode < fs.nextInode)
    (hi4 : w4.inode < fs.nextInode) :
    (s.doMonitorFiles fs).1 =
      { s with writer :=
          [some (newSyncBufio fs.nextInode ("DEBUG.log")),
           some (newSyncBufio (fs.nextInode + 1) ("INFO.log")),
           some (newSyncBufio (fs.nextInode + 2) ("WARNING.log")),
           some (newSyncBufio (fs.nextInode + 3) ("ERROR.log")),
           some (newSyncBufio (fs.nextInode + 4) ("FATAL.log"))] } ∧
    (lookupDir (s.doMonitorFiles fs).2.1.dir ("DEBUG.log") = some fs.nextInode ∧
     lookupDir (s.doMonitorFiles fs).2.1.dir ("INFO.log") = some (fs.nextInode + 1) ∧
     lookupDir (s.doMonitorFiles fs).2.1.dir ("WARNING.log") = some (fs.nextInode + 2) ∧
     lookupDir (s.doMonitorFiles fs).2.1.dir ("ERROR.log") = some (fs.nextInode + 3) ∧
     lookupDir (s.doMonitorFiles fs).2.1.dir ("FATAL.log") = some (fs.nextInode + 4)) ∧
    (FS.contentOf (s.doMonitorFiles fs).2.1 fs.nextInode = some [] ∧
     FS.contentOf (s.doMonitorFiles fs).2.1 (fs.nextInode + 1) = some [] ∧
     FS.contentOf (s.doMonitorFiles fs).2.1 (fs.nextInode + 2) = some [] ∧
     FS.contentOf (s.doMonitorFiles fs).2.1 (fs.nextInode + 3) = some [] ∧
     FS.contentOf (s.doMonitorFiles fs).2.1 (fs.nextInode + 4) = some []) ∧
    (∀ p, p ≠ "DEBUG.log" → p ≠ "INFO.log" → p ≠ "WARNING.log" →
      p ≠ "ERROR.log" → p ≠ "FATAL.log" →
      lookupDir (s.doMonitorFiles fs).2.1.dir p = lookupDir fs.dir p) ∧
    (∀ j, j < fs.nextInode → j ≠ w0.inode → j ≠ w1.inode → j ≠ w2.inode →
      j ≠ w3.inode → j ≠ w4.inode →
      FS.contentOf (s.doMonitorFiles fs).2.1 j = FS.contentOf fs j) ∧
    (s.doMonitorFiles fs).2.2 =
      [Event.syncFile w0.inode, Event.closeFile w0.inode,
       Event.syncFile w1.inode, Event.closeFile w1.inode,
       Event.syncFile w2.inode, Event.closeFile w2.inode,
       Event.syncFile w3.inode, Event.closeFile w3.inode,
       Event.syncFile w4.inode, Event.closeFile w4.inode] := by
  obtain ⟨d, w, rot, lrt, keep⟩ := s
  obtain ⟨dir, inodes, nxt⟩ := fs
  simp only at hw hm0 hm1 hm2 hm3 hm4 hi0 hi1 hi2 hi3 hi4
  subst hw
  obtain ⟨b0, i0, z0, p0⟩ := w0
  obtain ⟨b1, i1, z1, p1⟩ := w1
  obtain ⟨b2, i2, z2, p2⟩ := w2
  obtain ⟨b3, i3, z3, p3⟩ := w3
  obtain ⟨b4, i4, z4, p4⟩ := w4
  simp only at hp0 hp1 hp2 hp3 hp4 hi0 hi1 hi2 hi3 hi4
  subst hp0 hp1 hp2 hp3 hp4
  have n00 : ¬ (nxt = i0) := by omega
  have n10 : ¬ (nxt = i1) := by omega
  have n11 : ¬ (nxt + 1 = i1) := by omega
  have n20 : ¬ (nxt = i2) := by omega
  have n21 : ¬ (nxt + 1 = i2) := by omega
  have n22 : ¬ (nxt + 2 = i2) := by omega
  have n30 : ¬ (nxt = i3) := by omega
  have n31 : ¬ (nxt + 1 = i3) := by omega
  have n32 : ¬ (nxt + 2 = i3) := by omega
  have n33 : ¬ (nxt + 3 = i3) := by omega
  have n40 : ¬ (nxt = i4) := by omega
  have n41 : ¬ (nxt + 1 = i4) := by omega
  have n42 : ¬ (nxt + 2 = i4) := by omega
  have n43 : ¬ (nxt + 3 = i4) := by omega
  have n44 : ¬ (nxt + 4 = i4) := by omega
  refine ⟨?_, ⟨?_, ?_, ?_, ?_, ?_⟩, ⟨?_, ?_, ?_, ?_, ?_⟩, ?_, ?_, ?_⟩ <;>
    simp [FileBackend.doMonitorFiles, monitorGo, levelIndexList,
      FileBackend.openSyncBufio, FS.openAppendCreate, FS.statExists,
      SyncBufio.close, SyncBufio.flush, FS.appendToInode, newSyncBufio,
      FS.contentOf, lookupDir, lookupInode,
      hm0, hm1, hm2, hm3, hm4,
      n00, n10, n11, n20, n21, n22, n30, n31, n32, n33, n40, n41, n42, n43, n44]
  · intro p q0 q1 q2 q3 q4
    simp [Ne.symm q0, Ne.symm q1, Ne.symm q2, Ne.symm q3, Ne.symm q4]
  · intro j hlt hj0 hj1 hj2 hj3 hj4
    rw [if_neg (by omega), if_neg (by omega), if_neg (by omega),
        if_neg (by omega), if_neg (by omega)]
    refine lookupInode_map_of_keyfix j _ ?_ ?_ inodes
    · rintro ⟨k, v⟩
      simp only [Function.comp]
      split_ifs <;> rfl
    · rintro ⟨k, v⟩ hk
      simp only at hk
      subst hk
      simp [Function.comp, hj0, hj1, hj2, hj3, hj4]

/-- C7 (witness): a fresh backend over an emptied directory heals all
five levels in one tick. -/
theorem C7_monitor_heals_all_missing_witness :
    (liveBackend.doMonitorFiles { dir := [], inodes := [], nextInode := 5 }).1 =
      { liveBackend with writer :=
          [some (newSyncBufio 5 ("DEBUG.log")),
           some (newSyncBufio 6 ("INFO.log")),
           some (newSyncBufio 7 ("WARNING.log")),
           some (newSyncBufio 8 ("ERROR.log")),
           some (newSyncBufio 9 ("FATAL.log"))] } := by
  have h := (C7_monitor_heals_all_missing liveBackend
    { dir := [], inodes := [], nextInode := 5 } _ _ _ _ _ rfl rfl rfl rfl rfl rfl
    rfl rfl rfl rfl rfl (by decide) (by decide) (by decide) (by decide) (by decide)).1
  exact h.trans (by decide)

/-- C8: `truncateToHour` returns its argument with the minute, second and
sub-second components zeroed out, and it is idempotent. -/
theorem C8_truncateToHour_zeroing_idempotent (t : Int) :
    truncateToHour t =
      t - (minuteOf t * nsPerMinute + secondOf t * nsPerSecond + subsecondOf t) ∧
    minuteOf (truncateToHour t) = 0 ∧
    secondOf (truncateToHour t) = 0 ∧
    subsecondOf (truncateToHour t) = 0 ∧
    truncateToHour (truncateToHour t) = truncateToHour t := by
  unfold truncateToHour minuteOf secondOf subsecondOf nsPerHour nsPerMinute nsPerSecond
  norm_num
  omega

/-- C9: a directory entry that matches the archive pattern but whose
ten-digit suffix does not parse as a valid `YYYYMMDDHH` time makes
`shouldDelete` report the parse error and answer `false`, and the
retention sweep skips the file (no removal) and goes on with the
remaining entries. -/
theorem C9_parse_error_skips_file (name : String) (keep now : Int)
    (rest : List String) (fs : FS)
    (h1 : matchesRotatedPattern name = true)
    (h2 : parseDatetimeSuffix (String.mk (suffixPart name)) = none) :
    shouldDelete name keep now =
      .ok (false, [Event.stderrMsg ("parse datetime suffix failed")]) ∧
    retentionSweep keep now (name :: rest) fs =
      (match retentionSweep keep now rest fs with
       | .panicked => .panicked
       | .ok (fs2, evs2) =>
           .ok (fs2, Event.stderrMsg ("parse datetime suffix failed") :: evs2)) := by
  obtain ⟨l, m, c, hs⟩ := pattern_split_shape name h1
  unfold suffixPart at h2
  rw [hs] at h2
  simp only [List.getD_cons_succ, List.getD_cons_zero] at h2
  have hsd : shouldDelete name keep now =
      .ok (false, [Event.stderrMsg ("parse datetime suffix failed")]) := by
    unfold shouldDelete
    rw [hs]
    dsimp only
    rw [h2]
  refine ⟨hsd, ?_⟩
  conv_lhs => rw [retentionSweep]
  rw [if_pos h1, hsd]
  cases hsw : retentionSweep keep now rest fs with
  | panicked => rfl
  | ok pr =>
      obtain ⟨fs2, evs2⟩ := pr
      rfl

/-- C9 (witness): `INFO.log.2099999999` matches the pattern but month 99
does not parse; it is reported and skipped. -/
theorem C9_parse_error_skips_file_witness :
    shouldDelete ("INFO.log.2099999999") 1 tickTime1 =
      .ok (false, [Event.stderrMsg ("parse datetime suffix failed")]) :=
  (C9_parse_error_skips_file ("INFO.log.2099999999") 1 tickTime1 [] liveFS
    (by decide) (by decide)).1

/-- C10: `close` (as run by `Close`) clears every slot, and a `Flush`
after that is a no-op: the flush loop skips every nil slot, so nothing
is touched and nothing panics. -/
theorem C10_flush_after_close_safe (s : FileBackend) (fs : FS)
    (w0 w1 w2 w3 w4 : SyncBufio)
    (hw : s.writer = [some w0, some w1, some w2, some w3, some w4])
    (s' : FileBackend) (fs' : FS) (evs : List Event)
    (h : s.Close fs = .ok (s', fs', evs)) :
    s'.writer = [none, none, none, none, none] ∧
    ∀ fs2, s'.Flush fs2 = (s', fs2, []) := by
  obtain ⟨d, w, rot, lrt, keep⟩ := s
  simp only at hw
  subst hw
  have hc : FileBackend.Close
      { dir := d, writer := [some w0, some w1, some w2, some w3, some w4],
        rotateByHour := rot, lastRotateTime := lrt, keepHours := keep } fs =
      .ok ({ dir := d, writer := [none, none, none, none, none],
             rotateByHour := rot, lastRotateTime := lrt, keepHours := keep },
           ((((fs.appendToInode w0.inode w0.buffer).appendToInode w1.inode
              w1.buffer).appendToInode w2.inode w2.buffer).appendToInode w3.inode
              w3.buffer).appendToInode w4.inode w4.buffer,
           [Event.syncFile w0.inode, Event.closeFile w0.inode,
            Event.syncFile w1.inode, Event.closeFile w1.inode,
            Event.syncFile w2.inode, Event.closeFile w2.inode,
            Event.syncFile w3.inode, Event.closeFile w3.inode,
            Event.syncFile w4.inode, Event.closeFile w4.inode]) := rfl
  rw [hc] at h
  simp only [GoResult.ok.injEq, Prod.mk.injEq] at h
  obtain ⟨h2, h3, h4⟩ := h
  subst h2
  exact ⟨rfl, fun fs2 => rfl⟩

/-- C10 (witness): flushing the freshly closed backend changes nothing. -/
theorem C10_flush_after_close_safe_witness :
    closedBackend.writer = [none, none, none, none, none] ∧
    closedBackend.Flush liveFS = (closedBackend, liveFS, []) := by
  have h := C10_flush_after_close_safe liveBackend liveFS _ _ _ _ _ rfl
    closedBackend liveFS
    [Event.syncFile 0, Event.closeFile 0, Event.syncFile 1, Event.closeFile 1,
     Event.syncFile 2, Event.closeFile 2, Event.syncFile 3, Event.closeFile 3,
     Event.syncFile 4, Event.closeFile 4] (by decide)
  exact ⟨h.1, h.2 liveFS⟩

end Golog
